import Mathlib

/-!
Verification development for the clawbox repository (clawbox-core).

The Rust sources are shallowly embedded as executable Lean definitions:

- crypto.rs   : DerivedKey, EncryptedData, derive_key, encrypt, decrypt.
  The external cryptographic primitives (the argon2 crate's Argon2id and the
  aes_gcm crate's AES-256-GCM) are not repository code; they enter the model
  as explicit parameters (a key-derivation function and an Aead record), and
  the properties the library documents for AES-GCM (round-trip decryption,
  authentication failure under a different key) are stated as hypotheses.
  Randomness (salts, nonces) is passed as an explicit argument.
- vault.rs    : ClawBox.init, unlock, lock, is_unlocked, get, set, delete,
  over a VaultState record holding the meta table, the secrets table, the
  in-memory key and the trace of attempted audit-log calls.
- storage.rs  : the vault_meta key-value table, the secrets table with its
  ON CONFLICT(path) upsert, DELETE, and the audit_log schema column list.
- audit.rs    : AuditEntry.compute_hash, AuditLogger.log, query (default
  filter) and verify_integrity, including the fact that the SQL statements
  in audit.rs name a hash column that the schema of storage.rs does not
  declare.
- icloud.rs   : SyncMeta, ICloudSync.local_version, remote_version, push,
  pull and sync over a SyncState record modelling the local and remote
  files.

Bytes are lists of naturals; timestamps are naturals.
-/

namespace Clawbox

/-- Byte strings, as in the Rust Vec of u8. -/
abbrev Bytes := List Nat

/-- Error enum from error.rs (thiserror payloads reduced to the data the
code puts in them; external library error messages become fixed strings). -/
inductive Error where
  | VaultLocked : Error
  | VaultNotFound : String → Error
  | SecretNotFound : String → Error
  | InvalidPassword : Error
  | AccessDenied : String → Error
  | ApprovalTimeout : Error
  | Encryption : String → Error
  | Decryption : String → Error
  | Database : String → Error
  | IoError : String → Error
  | Json : String → Error
  | Other : String → Error
deriving DecidableEq, Repr

/-- KEY_LEN from crypto.rs (256-bit key). -/
def KEY_LEN : Nat := 32

/-- NONCE_LEN from crypto.rs (96-bit GCM nonce). -/
def NONCE_LEN : Nat := 12

/-- DerivedKey from crypto.rs: a 32-byte key wrapper. -/
structure DerivedKey where
  bytes : Bytes
deriving DecidableEq, Repr

/-- EncryptedData from crypto.rs. -/
structure EncryptedData where
  nonce : Bytes
  ciphertext : Bytes
deriving DecidableEq, Repr

/-- DerivedKey::from_bytes of crypto.rs: start from 32 zero bytes and
overwrite the first min(len, 32) of them with the supplied bytes. -/
def DerivedKey.from_bytes (bytes : Bytes) : DerivedKey :=
  let key_bytes : Bytes := List.replicate KEY_LEN 0
  let len := min bytes.length KEY_LEN
  ⟨bytes.take len ++ key_bytes.drop len⟩

/-- DerivedKey::to_bytes of crypto.rs. -/
def DerivedKey.to_bytes (k : DerivedKey) : Bytes :=
  k.bytes

/-- Interface of the external aes_gcm crate (AES-256-GCM): an encryption
function and a decryption function over (key bytes, nonce, payload).
Decryption returns none on authentication failure. -/
structure Aead where
  enc : Bytes → Bytes → Bytes → Bytes
  dec : Bytes → Bytes → Bytes → Option Bytes

/-- Documented AEAD round-trip contract of AES-256-GCM: decrypting an
encryption under the same 32-byte key and nonce returns the plaintext. -/
def AeadCorrect (A : Aead) : Prop :=
  ∀ k n m, k.length = KEY_LEN → A.dec k n (A.enc k n m) = some m

/-- Documented AEAD authentication contract of AES-256-GCM: decrypting
under a different 32-byte key never returns the original plaintext
(for a real AEAD it fails outright; this weaker form suffices). -/
def WrongKeyReject (A : Aead) : Prop :=
  ∀ k k' n m m', k.length = KEY_LEN → k'.length = KEY_LEN → k ≠ k' →
    A.dec k' n (A.enc k n m) = some m' → m' ≠ m

/-- Interface of the external argon2 crate: a deterministic map from
(password, salt) to 32 bytes of key material. -/
abbrev Kdf := String → Bytes → Bytes

/-- derive_key of crypto.rs, input validation abstracted: with the fixed
Argon2id constants Params::new cannot fail, and on the salts the program
itself generates (32 bytes) hash_password_into succeeds, so on that
domain the function returns ok with the key material produced by the
external hash. The external crate does reject salts shorter than its
8-byte minimum; derive_key_checked below makes that validation explicit,
and claims ranging over arbitrary stored salts use it. -/
def derive_key (kdf : Kdf) (password : String) (salt : Bytes) :
    Except Error DerivedKey :=
  .ok ⟨kdf password salt⟩

/-- Minimum salt length accepted by the external argon2 crate's
hash_password_into (Error::SaltTooShort below it). -/
def MIN_SALT_LEN : Nat := 8

/-- derive_key of crypto.rs with the external argon2 crate's input
validation explicit: hash_password_into rejects a salt shorter than its
8-byte minimum with SaltTooShort, which the map_err of crypto.rs:80-83
turns into Error.Encryption; otherwise the derived key is returned. -/
def derive_key_checked (kdf : Kdf) (password : String) (salt : Bytes) :
    Except Error DerivedKey :=
  if salt.length < MIN_SALT_LEN then
    .error (Error.Encryption "salt too short")
  else .ok ⟨kdf password salt⟩

/-- encrypt of crypto.rs: a fresh random nonce is drawn from the thread
rng (modelled as the explicit nonce argument) and the AEAD ciphertext is
packaged with it. -/
def encrypt (A : Aead) (plaintext : Bytes) (key : DerivedKey)
    (nonce : Bytes) : Except Error EncryptedData :=
  .ok ⟨nonce, A.enc key.bytes nonce plaintext⟩

/-- decrypt of crypto.rs, input validation abstracted: AEAD decryption
with authentication failure mapped to Error.Decryption. Every caller in
this development hands it a 12-byte nonce and a 32-byte key, the only
inputs on which the external cipher constructs; decrypt_checked below
makes the external validation (including the Nonce::from_slice panic on
a wrong-length nonce) explicit for claims over arbitrary stored
records. -/
def decrypt (A : Aead) (encrypted : EncryptedData) (key : DerivedKey) :
    Except Error Bytes :=
  match A.dec key.bytes encrypted.nonce encrypted.ciphertext with
  | some plaintext => .ok plaintext
  | none => .error (Error.Decryption "aead")

/-- decrypt of crypto.rs with the external aes_gcm crate's input
validation explicit, in source order: Aes256Gcm::new_from_slice fails
with InvalidLength (mapped to Error.Decryption) when the key is not 32
bytes; Nonce::from_slice PANICS when the nonce is not 12 bytes, a
non-returning outcome modelled as none; otherwise the result is that of
decrypt. -/
def decrypt_checked (A : Aead) (encrypted : EncryptedData)
    (key : DerivedKey) : Option (Except Error Bytes) :=
  if key.bytes.length ≠ KEY_LEN then
    some (.error (Error.Decryption "invalid key length"))
  else if encrypted.nonce.length ≠ NONCE_LEN then none
  else some (decrypt A encrypted key)

/-- Concrete AEAD instance used to discharge the abstract AEAD contract in
witnesses: the ciphertext is the key followed by the plaintext, and
decryption checks that the first 32 bytes equal the key. -/
def toyAead : Aead :=
  ⟨fun k _ m => k ++ m,
   fun k _ c => if c.take KEY_LEN = k then some (c.drop KEY_LEN) else none⟩

/-- The toy AEAD satisfies the round-trip contract. -/
theorem toyAead_correct : AeadCorrect toyAead := by
  intro k n m hk
  show (if (k ++ m).take KEY_LEN = k then some ((k ++ m).drop KEY_LEN)
    else none) = some m
  rw [show KEY_LEN = k.length from hk.symm, List.take_left, List.drop_left,
    if_pos rfl]

/-- The toy AEAD satisfies the wrong-key rejection contract. -/
theorem toyAead_wrongKey : WrongKeyReject toyAead := by
  intro k k' n m m' hk hk' hne hdec
  have htake : (k ++ m).take KEY_LEN = k := by
    rw [show KEY_LEN = k.length from hk.symm, List.take_left]
  have : (if (k ++ m).take KEY_LEN = k' then some ((k ++ m).drop KEY_LEN)
      else none) = some m' := hdec
  rw [htake, if_neg hne] at this
  exact absurd this (by simp)

/-- Concrete KDF instance used in witnesses: the password's code points,
truncated and zero-padded to 32 bytes. -/
def toyKdf : Kdf :=
  fun p _ => (p.toList.map Char.toNat).take KEY_LEN ++
    List.replicate (KEY_LEN - p.length) 0

/-- C3: for every password, salt and plaintext, decrypting the encryption
of M under the key derived from (P, S) returns M, assuming the AEAD
round-trip contract of the external AES-256-GCM implementation and that
the external KDF emits 32 bytes for (P, S). -/
theorem crypto_roundtrip (A : Aead) (kdf : Kdf) (P : String)
    (S M nonce : Bytes) (hA : AeadCorrect A)
    (hlen : (kdf P S).length = KEY_LEN) :
    ((derive_key kdf P S).bind fun key =>
      (encrypt A M key nonce).bind fun ed =>
        decrypt A ed key) = .ok M := by
  simp only [derive_key, encrypt, Except.bind, decrypt]
  rw [hA _ _ _ hlen]

/-- Witness for C3 at a concrete toy AEAD and KDF. -/
theorem crypto_roundtrip_witness :
    ((derive_key toyKdf "pw" []).bind fun key =>
      (encrypt toyAead [1, 2, 3] key [9, 9, 9]).bind fun ed =>
        decrypt toyAead ed key) = .ok [1, 2, 3] :=
  crypto_roundtrip toyAead toyKdf "pw" [] [1, 2, 3] [9, 9, 9]
    toyAead_correct (by decide)

/-- C10: DerivedKey.from_bytes is total and copies the first
min(len(b), 32) bytes, zero-filling the remainder; the export
DerivedKey.to_bytes always yields 32 bytes, and round-trips exactly when
the input had length 32. -/
theorem from_bytes_total_roundtrip (b : Bytes) :
    DerivedKey.to_bytes (DerivedKey.from_bytes b) =
      b.take KEY_LEN ++ List.replicate (KEY_LEN - b.length) 0 ∧
    (DerivedKey.to_bytes (DerivedKey.from_bytes b)).length = KEY_LEN ∧
    (DerivedKey.to_bytes (DerivedKey.from_bytes b) = b ↔
      b.length = KEY_LEN) := by
  have hform : DerivedKey.to_bytes (DerivedKey.from_bytes b) =
      b.take KEY_LEN ++ List.replicate (KEY_LEN - b.length) 0 := by
    simp only [DerivedKey.from_bytes, DerivedKey.to_bytes]
    rcases Nat.le_total b.length KEY_LEN with h | h
    · rw [min_eq_left h, List.take_length, List.drop_replicate,
        List.take_of_length_le h]
    · rw [min_eq_right h, Nat.sub_eq_zero_of_le h, List.replicate_zero,
        List.append_nil, List.drop_replicate, Nat.sub_self,
        List.replicate_zero, List.append_nil]
  have hlen : (DerivedKey.to_bytes (DerivedKey.from_bytes b)).length =
      KEY_LEN := by
    rw [hform]
    simp only [List.length_append, List.length_take, List.length_replicate]
    omega
  refine ⟨hform, hlen, ?_, ?_⟩
  · intro h
    rw [← h, hlen]
  · intro h
    rw [hform, h, Nat.sub_self, List.replicate_zero, List.append_nil,
      List.take_of_length_le (le_of_eq h)]

/-- Action enum from audit.rs. -/
inductive Action where
  | Read : Action
  | Write : Action
  | Delete : Action
  | Export : Action
  | Unlock : Action
  | Lock : Action
  | Init : Action
deriving DecidableEq, Repr

/-- Action::as_str of audit.rs. -/
def Action.as_str : Action → String
  | Action.Read => "read"
  | Action.Write => "write"
  | Action.Delete => "delete"
  | Action.Export => "export"
  | Action.Unlock => "unlock"
  | Action.Lock => "lock"
  | Action.Init => "init"

/-- AuditEntry from audit.rs. The timestamp is unix seconds; the source
field is kept as its serialized string. -/
structure AuditEntry where
  id : String
  timestamp : Nat
  actor_type : String
  actor_identifier : String
  action : Action
  key_path : String
  success : Bool
  error_message : Option String
  source : String
  hash : Option String
  prev_hash : Option String
deriving DecidableEq, Repr

/-- Interface of the external sha2 crate: a collision-resistant digest
over the sequence of byte chunks fed to the hasher, rendered in hex. -/
abbrev Digest := List String → String

/-- Rendering of a timestamp by to_rfc3339, supplied by the external
chrono crate. -/
abbrev Rfc3339 := Nat → String

/-- AuditEntry::compute_hash of audit.rs: digest over id, rfc3339
timestamp, actor type, action string, key path, success as 1 or 0, and
the previous hash when present. -/
def AuditEntry.compute_hash (H : Digest) (rfc : Rfc3339) (e : AuditEntry)
    (prev_hash : Option String) : String :=
  H ([e.id, rfc e.timestamp, e.actor_type, e.action.as_str, e.key_path,
      if e.success then "1" else "0"] ++
    (match prev_hash with
     | some prev => [prev]
     | none => []))

/-- Columns of the audit_log table as created by init_schema in
storage.rs (note: prev_hash and metadata, but no hash column). -/
def audit_log_schema_columns : List String :=
  ["id", "timestamp", "actor", "action", "key_path", "success",
   "error_message", "source", "prev_hash", "metadata"]

/-- Column referenced by the SELECT of AuditLogger::get_last_hash. -/
def get_last_hash_select_columns : List String := ["hash"]

/-- Columns named by the INSERT of AuditLogger::log. -/
def log_insert_columns : List String :=
  ["id", "timestamp", "actor", "action", "key_path", "success",
   "error_message", "source", "hash", "prev_hash"]

/-- Columns named by the SELECT of AuditLogger::query. -/
def query_select_columns : List String :=
  ["id", "timestamp", "actor", "action", "key_path", "success",
   "error_message", "source", "hash", "prev_hash"]

/-- SQLite accepts a statement only when every column it names exists in
the table's schema; otherwise preparation fails with a column error. -/
def sql_columns_ok (schema cols : List String) : Bool :=
  cols.all fun c => schema.contains c

/-- AuditLogger::get_last_hash of audit.rs: SELECT hash ... ORDER BY
timestamp DESC LIMIT 1. The ledger state is the list of rows in
insertion order (timestamps are nondecreasing in insertion order for a
sequential logger), so the statement would return the hash of the last
inserted row; it fails when the hash column does not exist. -/
def AuditLogger.get_last_hash (st : List AuditEntry) :
    Except Error (Option String) :=
  if sql_columns_ok audit_log_schema_columns get_last_hash_select_columns then
    .ok (st.getLast?.bind fun e => e.hash)
  else .error (Error.Database "no such column: hash")

/-- AuditLogger::log of audit.rs: fetch the last hash, link the entry to
it, compute its own hash, and INSERT the row; the INSERT fails when it
names a column missing from the schema. -/
def AuditLogger.log (H : Digest) (rfc : Rfc3339) (st : List AuditEntry)
    (e : AuditEntry) : Except Error (List AuditEntry) :=
  match AuditLogger.get_last_hash st with
  | .error err => .error err
  | .ok prev =>
    let e' := { e with
      prev_hash := prev,
      hash := some (AuditEntry.compute_hash H rfc e prev) }
    if sql_columns_ok audit_log_schema_columns log_insert_columns then
      .ok (st ++ [e'])
    else .error (Error.Database "table audit_log has no column named hash")

/-- AuditLogger::query of audit.rs with the default (empty) filter: a
SELECT of all rows in timestamp-descending order; it fails when the
statement names a column missing from the schema. -/
def AuditLogger.query_all (st : List AuditEntry) :
    Except Error (List AuditEntry) :=
  if sql_columns_ok audit_log_schema_columns query_select_columns then
    .ok st.reverse
  else .error (Error.Database "no such column: hash")

/-- Chain replay of AuditLogger::verify_integrity: each entry's stored
hash must equal the hash recomputed from its fields and the previous
entry's stored hash. -/
def chain_ok (H : Digest) (rfc : Rfc3339) :
    Option String → List AuditEntry → Bool
  | _, [] => true
  | prev, e :: rest =>
    if e.hash == some (AuditEntry.compute_hash H rfc e prev) then
      chain_ok H rfc e.hash rest
    else false

/-- AuditLogger::verify_integrity of audit.rs: query all entries
(descending), reverse to chronological order, and replay the chain. -/
def AuditLogger.verify_integrity (H : Digest) (rfc : Rfc3339)
    (st : List AuditEntry) : Except Error Bool :=
  match AuditLogger.query_all st with
  | .error e => .error e
  | .ok entries => .ok (chain_ok H rfc none entries.reverse)

/-- C1: the SQL statements of audit.rs reference a hash column that the
audit_log table of init_schema does not declare, so every log call fails
with a database error (the SELECT of get_last_hash is rejected) and
verify_integrity also fails with a database error instead of returning
Ok(true) after N logged entries. -/
theorem audit_schema_missing_hash_column :
    ("hash" ∈ log_insert_columns ∧ "hash" ∈ query_select_columns ∧
      "hash" ∈ get_last_hash_select_columns ∧
      "hash" ∉ audit_log_schema_columns) ∧
    (∀ (H : Digest) (rfc : Rfc3339) (st : List AuditEntry) (e : AuditEntry),
      AuditLogger.log H rfc st e =
        .error (Error.Database "no such column: hash")) ∧
    (∀ (H : Digest) (rfc : Rfc3339) (st : List AuditEntry),
      AuditLogger.verify_integrity H rfc st =
        .error (Error.Database "no such column: hash")) := by
  have h1 : sql_columns_ok audit_log_schema_columns
      get_last_hash_select_columns = false := by decide
  have h2 : sql_columns_ok audit_log_schema_columns
      query_select_columns = false := by decide
  refine ⟨by decide, ?_, ?_⟩
  · intro H rfc st e
    simp [AuditLogger.log, AuditLogger.get_last_hash, h1]
  · intro H rfc st
    simp [AuditLogger.verify_integrity, AuditLogger.query_all, h2]

/-- AccessLevel from lib.rs. -/
inductive AccessLevel where
  | Public : AccessLevel
  | Normal : AccessLevel
  | Sensitive : AccessLevel
  | Critical : AccessLevel
deriving DecidableEq, Repr

/-- SetOptions from lib.rs (ttl is carried but never written by
SqliteStore::set, whose INSERT omits ttl_expires_at). -/
structure SetOptions where
  access : AccessLevel := AccessLevel.Normal
  ttl : Option Nat := none
  tags : List String := []
  note : Option String := none
deriving DecidableEq, Repr

/-- A row of the secrets table of storage.rs. -/
structure SecretRow where
  id : String
  path : String
  encrypted_value : Bytes
  access : AccessLevel
  tags : List String
  note : Option String
  created_at : Nat
  updated_at : Nat
  created_by : String
deriving DecidableEq, Repr

/-- The vault_meta key-value table of storage.rs, as a map. -/
abbrev MetaTable := String → Option Bytes

/-- SqliteStore::set_meta: INSERT OR REPLACE by key. -/
def set_meta (m : MetaTable) (key : String) (value : Bytes) : MetaTable :=
  fun k => if k = key then some value else m k

/-- SqliteStore::get_meta: lookup by key. -/
def get_meta (m : MetaTable) (key : String) : Option Bytes :=
  m key

/-- SqliteStore::get of storage.rs: the encrypted_value of the unique row
at the path, if any. -/
def SqliteStore.get (rows : List SecretRow) (path : String) : Option Bytes :=
  (rows.find? fun r => r.path == path).map fun r => r.encrypted_value

/-- The ON CONFLICT(path) DO UPDATE clause of SqliteStore::set: replace
encrypted_value, access_level, tags, note and updated_at on the matching
row; id, created_at and created_by keep their stored values. -/
def SqliteStore.upsert_row (path : String) (value : Bytes)
    (access : AccessLevel) (tags : List String) (note : Option String)
    (now : Nat) (r : SecretRow) : SecretRow :=
  if r.path == path then
    { r with
      encrypted_value := value, access := access, tags := tags,
      note := note, updated_at := now }
  else r

/-- SqliteStore::set of storage.rs: INSERT a fresh row (uuid id, both
timestamps set to now, created_by human) or, when a row with the same
path exists, apply the ON CONFLICT update. -/
def SqliteStore.set (rows : List SecretRow) (id path : String)
    (value : Bytes) (access : AccessLevel) (tags : List String)
    (note : Option String) (now : Nat) : List SecretRow :=
  if rows.any fun r => r.path == path then
    rows.map (SqliteStore.upsert_row path value access tags note now)
  else
    rows ++ [⟨id, path, value, access, tags, note, now, now, "human"⟩]

/-- SqliteStore::delete of storage.rs: DELETE by path, reporting whether
any row was affected. -/
def SqliteStore.delete (rows : List SecretRow) (path : String) :
    Bool × List SecretRow :=
  ((rows.any fun r => r.path == path),
   rows.filter fun r => !(r.path == path))

/-- One invocation of ClawBox::log_audit in vault.rs (the entry handed to
AuditLogger::log; persistence of that entry is the audit module's
business and its result is discarded at the call site). -/
structure AuditCall where
  action : Action
  key_path : String
  success : Bool
  error_message : Option String
deriving DecidableEq, Repr

/-- The ClawBox vault of vault.rs: its path, the backing store's tables,
the trace of attempted audit-log calls, and the in-memory key. -/
structure VaultState where
  path : String
  meta : MetaTable
  secrets : List SecretRow
  audit_calls : List AuditCall
  key : Option DerivedKey

/-- ClawBox::log_audit of vault.rs: build the entry and hand it to the
logger, ignoring the logger's result. -/
def ClawBox.log_audit (cb : VaultState) (action : Action)
    (key_path : String) (success : Bool) (err : Option String) :
    VaultState :=
  { cb with audit_calls := cb.audit_calls ++ [⟨action, key_path, success, err⟩] }

/-- The fixed verification token of vault.rs, the byte string of
clawbox-verification-token. -/
def verification_token : Bytes :=
  "clawbox-verification-token".toList.map Char.toNat

/-- ClawBox::init of vault.rs: persist the (random, parameter) salt,
derive the key, encrypt the verification token under it with a fresh
(parameter) nonce, persist nonce and ciphertext, retain the key, and log
an Init audit entry. -/
def ClawBox.init (A : Aead) (kdf : Kdf) (cb : VaultState)
    (password : String) (salt vnonce : Bytes) :
    Except Error Unit × VaultState :=
  let cb1 := { cb with meta := set_meta cb.meta "salt" salt }
  match derive_key kdf password salt with
  | .error e => (.error e, cb1)
  | .ok key =>
    match encrypt A verification_token key vnonce with
    | .error e => (.error e, cb1)
    | .ok encd =>
      let cb2 :=
        { cb1 with meta := set_meta cb1.meta "verification_nonce" encd.nonce }
      let cb3 :=
        { cb2 with meta := set_meta cb2.meta "verification_data" encd.ciphertext }
      let cb4 := { cb3 with key := some key }
      (.ok (), ClawBox.log_audit cb4 Action.Init "vault" true none)

/-- ClawBox::is_initialized of vault.rs: a salt has been persisted. -/
def ClawBox.is_initialized (cb : VaultState) : Bool :=
  (get_meta cb.meta "salt").isSome

/-- ClawBox::unlock of vault.rs: missing salt yields VaultNotFound with
the vault path; afterwards the key is re-derived and the stored
verification record is decrypted and compared, any failure yielding
InvalidPassword; on success the key is retained. -/
def ClawBox.unlock (A : Aead) (kdf : Kdf) (cb : VaultState)
    (password : String) : Except Error Unit × VaultState :=
  match get_meta cb.meta "salt" with
  | none => (.error (Error.VaultNotFound cb.path), cb)
  | some salt =>
    match derive_key kdf password salt with
    | .error e => (.error e, cb)
    | .ok key =>
      match get_meta cb.meta "verification_nonce" with
      | none => (.error Error.InvalidPassword, cb)
      | some nonce =>
        match get_meta cb.meta "verification_data" with
        | none => (.error Error.InvalidPassword, cb)
        | some ciphertext =>
          match decrypt A ⟨nonce, ciphertext⟩ key with
          | .error _ => (.error Error.InvalidPassword, cb)
          | .ok decrypted =>
            if decrypted = verification_token then
              (.ok (), { cb with key := some key })
            else (.error Error.InvalidPassword, cb)

/-- ClawBox::unlock of vault.rs over arbitrary stored records, built on
the checked crypto refinements: a missing salt yields VaultNotFound; a
stored salt the external argon2 crate rejects makes derive_key return
Error.Encryption, which the question-mark at vault.rs:76 propagates raw;
a stored verification nonce of the wrong length makes Nonce::from_slice
panic (the whole call does not return, modelled as none); every other
failure is mapped to InvalidPassword exactly as in unlock above. -/
def ClawBox.unlock_checked (A : Aead) (kdf : Kdf) (cb : VaultState)
    (password : String) : Option (Except Error Unit × VaultState) :=
  match get_meta cb.meta "salt" with
  | none => some (.error (Error.VaultNotFound cb.path), cb)
  | some salt =>
    match derive_key_checked kdf password salt with
    | .error e => some (.error e, cb)
    | .ok key =>
      match get_meta cb.meta "verification_nonce" with
      | none => some (.error Error.InvalidPassword, cb)
      | some nonce =>
        match get_meta cb.meta "verification_data" with
        | none => some (.error Error.InvalidPassword, cb)
        | some ciphertext =>
          match decrypt_checked A ⟨nonce, ciphertext⟩ key with
          | none => none
          | some (.error _) => some (.error Error.InvalidPassword, cb)
          | some (.ok decrypted) =>
            if decrypted = verification_token then
              some (.ok (), { cb with key := some key })
            else some (.error Error.InvalidPassword, cb)

/-- ClawBox::lock of vault.rs: drop (and zeroize) the key if present. -/
def ClawBox.lock (cb : VaultState) : VaultState :=
  { cb with key := none }

/-- ClawBox::is_unlocked of vault.rs. -/
def ClawBox.is_unlocked (cb : VaultState) : Bool :=
  cb.key.isSome

/-- Interface of the external String::from_utf8: decode bytes to a string
when they are valid UTF-8. -/
abbrev Utf8 := Bytes → Option String

/-- Interface of the external str::as_bytes: the UTF-8 bytes of a
string. -/
abbrev StrBytes := String → Bytes

/-- ClawBox::get of vault.rs. Note which branches log an audit entry:
the malformed-blob branch, the success branch and the not-found branch
do; the branches where crypto decryption fails or the plaintext is not
UTF-8 propagate the error with the question-mark operator without
logging. -/
def ClawBox.get (A : Aead) (u8 : Utf8) (cb : VaultState) (path : String) :
    Except Error (Option String) × VaultState :=
  match cb.key with
  | none => (.error Error.VaultLocked, cb)
  | some key =>
    match SqliteStore.get cb.secrets path with
    | some data =>
      if data.length < 12 then
        (.error (Error.Decryption "Invalid data format"),
         ClawBox.log_audit cb Action.Read path false
           (some "Invalid data format"))
      else
        match decrypt A ⟨data.take 12, data.drop 12⟩ key with
        | .error e => (.error e, cb)
        | .ok plaintext =>
          match u8 plaintext with
          | none => (.error (Error.Decryption "utf8"), cb)
          | some value =>
            (.ok (some value), ClawBox.log_audit cb Action.Read path true none)
    | none =>
      (.ok none, ClawBox.log_audit cb Action.Read path false (some "Not found"))

/-- ClawBox::set of vault.rs: encrypt the value under the session key
with a fresh (parameter) nonce, store nonce plus ciphertext under the
path (uuid and clock of the store as parameters), and log a Write entry.
The store's set cannot fail in this model, so the failure-logging branch
of the source is not reachable here. -/
def ClawBox.set (A : Aead) (enc8 : StrBytes) (cb : VaultState)
    (path value : String) (opts : SetOptions) (nonce : Bytes) (id : String)
    (now : Nat) : Except Error Unit × VaultState :=
  match cb.key with
  | none => (.error Error.VaultLocked, cb)
  | some key =>
    match encrypt A (enc8 value) key nonce with
    | .error e => (.error e, cb)
    | .ok encd =>
      let data := encd.nonce ++ encd.ciphertext
      let secrets' := SqliteStore.set cb.secrets id path data opts.access
        opts.tags opts.note now
      (.ok (), ClawBox.log_audit { cb with secrets := secrets' }
        Action.Write path true none)

/-- ClawBox::delete of vault.rs: requires the vault unlocked, deletes by
path, and logs a Delete entry whose success flag is whether a row
existed. -/
def ClawBox.delete (cb : VaultState) (path : String) :
    Except Error Bool × VaultState :=
  if ClawBox.is_unlocked cb = false then (.error Error.VaultLocked, cb)
  else
    let r := SqliteStore.delete cb.secrets path
    (.ok r.1,
     ClawBox.log_audit { cb with secrets := r.2 } Action.Delete path r.1
       (if r.1 then none else some "Not found"))

/-- An uninitialized vault: empty tables, no key. -/
def emptyVault : VaultState :=
  { path := "/vault", meta := fun _ => none, secrets := [],
    audit_calls := [], key := none }

/-- C2 counterexample: on a never-initialized vault (no stored salt),
unlock returns VaultNotFound, not InvalidPassword. -/
theorem unlock_uninitialized_counterexample :
    (ClawBox.unlock toyAead toyKdf emptyVault "pw").1 =
      .error (Error.VaultNotFound "/vault") ∧
    Error.VaultNotFound "/vault" ≠ Error.InvalidPassword :=
  ⟨rfl, by decide⟩

/-- On well-formed stored records (any stored salt at least argon2's
8-byte minimum, any stored verification nonce of the GCM length 12) and
a 32-byte-output KDF, the checked unlock returns and agrees with the
simplified unlock used elsewhere in this development. -/
theorem unlock_checked_refines_unlock (A : Aead) (kdf : Kdf)
    (cb : VaultState) (P : String)
    (hkdf : ∀ p s, (kdf p s).length = KEY_LEN)
    (hsalt : ∀ s, get_meta cb.meta "salt" = some s →
      MIN_SALT_LEN ≤ s.length)
    (hnonce : ∀ n, get_meta cb.meta "verification_nonce" = some n →
      n.length = NONCE_LEN) :
    ClawBox.unlock_checked A kdf cb P =
      some (ClawBox.unlock A kdf cb P) := by
  unfold ClawBox.unlock_checked ClawBox.unlock
  cases hs : get_meta cb.meta "salt" with
  | none => simp
  | some salt =>
    have hdk : derive_key_checked kdf P salt = .ok ⟨kdf P salt⟩ := by
      simp [derive_key_checked, Nat.not_lt.mpr (hsalt salt hs)]
    simp only [hdk, derive_key]
    cases hn : get_meta cb.meta "verification_nonce" with
    | none => simp
    | some nonce =>
      cases hd : get_meta cb.meta "verification_data" with
      | none => simp
      | some ciphertext =>
        have hdc : decrypt_checked A ⟨nonce, ciphertext⟩ ⟨kdf P salt⟩ =
            some (decrypt A ⟨nonce, ciphertext⟩ ⟨kdf P salt⟩) := by
          simp [decrypt_checked, hkdf P salt, hnonce nonce hn]
        simp only [hdc]
        cases hdec : decrypt A ⟨nonce, ciphertext⟩ ⟨kdf P salt⟩ with
        | error err => simp
        | ok d =>
          by_cases hv : d = verification_token <;> simp [hv]

/-- C2 amended: on the checked unlock model (argon2 salt validation and
the Nonce::from_slice panic made explicit) a missing salt
(never-initialized vault) yields VaultNotFound with the vault path; a
stored salt below argon2's 8-byte minimum yields Error.Encryption,
propagated raw from derive_key; and with a stored salt of accepted
length every failure the call returns — missing verification nonce or
data, cipher construction or authentication failure, token mismatch —
is InvalidPassword (a wrong-length stored nonce does not return at all:
it panics). -/
theorem unlock_error_taxonomy (A : Aead) (kdf : Kdf) (cb : VaultState)
    (P : String) :
    (get_meta cb.meta "salt" = none →
      ClawBox.unlock_checked A kdf cb P =
        some (.error (Error.VaultNotFound cb.path), cb)) ∧
    (∀ salt, get_meta cb.meta "salt" = some salt →
      salt.length < MIN_SALT_LEN →
      ClawBox.unlock_checked A kdf cb P =
        some (.error (Error.Encryption "salt too short"), cb)) ∧
    (∀ salt out e, get_meta cb.meta "salt" = some salt →
      MIN_SALT_LEN ≤ salt.length →
      ClawBox.unlock_checked A kdf cb P = some out →
      out.1 = .error e →
      e = Error.InvalidPassword) := by
  refine ⟨?_, ?_, ?_⟩
  · intro h
    simp [ClawBox.unlock_checked, h]
  · intro salt hs hlt
    simp [ClawBox.unlock_checked, hs, derive_key_checked, hlt]
  · intro salt out e hs hge hout hise
    have hdk : derive_key_checked kdf P salt = .ok ⟨kdf P salt⟩ := by
      simp [derive_key_checked, Nat.not_lt.mpr hge]
    unfold ClawBox.unlock_checked at hout
    simp only [hs, hdk] at hout
    split at hout
    · injection hout with h1
      subst h1
      have h' : Except.error Error.InvalidPassword = Except.error e := hise
      injection h' with h''
      exact h''.symm
    · split at hout
      · injection hout with h1
        subst h1
        have h' : Except.error Error.InvalidPassword = Except.error e := hise
        injection h' with h''
        exact h''.symm
      · split at hout
        · exact Option.noConfusion hout
        · injection hout with h1
          subst h1
          have h' : Except.error Error.InvalidPassword = Except.error e :=
            hise
          injection h' with h''
          exact h''.symm
        · split at hout
          · injection hout with h1
            subst h1
            exact Except.noConfusion
              (show Except.ok () = Except.error e from hise)
          · injection hout with h1
            subst h1
            have h' : Except.error Error.InvalidPassword = Except.error e :=
              hise
            injection h' with h''
            exact h''.symm

/-- Witness for the amended C2 on the uninitialized vault. -/
theorem unlock_error_taxonomy_witness :
    ClawBox.unlock_checked toyAead toyKdf emptyVault "pw" =
      some (.error (Error.VaultNotFound "/vault"), emptyVault) :=
  (unlock_error_taxonomy toyAead toyKdf emptyVault "pw").1 rfl

/-- C4: init(P), lock(), unlock(P) succeeds and leaves the vault
unlocked; unlock(W) for a wrong password W on the same locked vault
fails with InvalidPassword and leaves it locked. Assumes the AEAD
contracts of AES-256-GCM and that the KDF gives the two passwords
distinct 32-byte keys (collision freedom of Argon2id). -/
theorem vault_lifecycle (A : Aead) (kdf : Kdf) (cb : VaultState)
    (P W : String) (salt vnonce : Bytes)
    (hA : AeadCorrect A) (hR : WrongKeyReject A)
    (hlenP : (kdf P salt).length = KEY_LEN)
    (hlenW : (kdf W salt).length = KEY_LEN)
    (hPW : W ≠ P) (hkdf : kdf W salt ≠ kdf P salt) :
    (ClawBox.init A kdf cb P salt vnonce).1 = .ok () ∧
    (ClawBox.unlock A kdf
      (ClawBox.lock (ClawBox.init A kdf cb P salt vnonce).2) P).1 = .ok () ∧
    ClawBox.is_unlocked (ClawBox.unlock A kdf
      (ClawBox.lock (ClawBox.init A kdf cb P salt vnonce).2) P).2 = true ∧
    (ClawBox.unlock A kdf
      (ClawBox.lock (ClawBox.init A kdf cb P salt vnonce).2) W).1 =
        .error Error.InvalidPassword ∧
    ClawBox.is_unlocked (ClawBox.unlock A kdf
      (ClawBox.lock (ClawBox.init A kdf cb P salt vnonce).2) W).2 = false := by
  have hdecP := hA (kdf P salt) vnonce verification_token hlenP
  refine ⟨rfl, ?_, ?_, ?_, ?_⟩
  · simp [ClawBox.unlock, ClawBox.init, ClawBox.lock, ClawBox.log_audit,
      derive_key, encrypt, decrypt, get_meta, set_meta, hdecP]
  · simp [ClawBox.unlock, ClawBox.init, ClawBox.lock, ClawBox.log_audit,
      ClawBox.is_unlocked, derive_key, encrypt, decrypt, get_meta, set_meta,
      hdecP]
  · rcases hdW : A.dec (kdf W salt) vnonce
        (A.enc (kdf P salt) vnonce verification_token) with _ | m'
    · simp [ClawBox.unlock, ClawBox.init, ClawBox.lock, ClawBox.log_audit,
        derive_key, encrypt, decrypt, get_meta, set_meta, hdW]
    · have hne : m' ≠ verification_token :=
        hR (kdf P salt) (kdf W salt) vnonce verification_token m' hlenP
          hlenW (Ne.symm hkdf) hdW
      simp [ClawBox.unlock, ClawBox.init, ClawBox.lock, ClawBox.log_audit,
        derive_key, encrypt, decrypt, get_meta, set_meta, hdW, hne]
  · rcases hdW : A.dec (kdf W salt) vnonce
        (A.enc (kdf P salt) vnonce verification_token) with _ | m'
    · simp [ClawBox.unlock, ClawBox.init, ClawBox.lock, ClawBox.log_audit,
        ClawBox.is_unlocked, derive_key, encrypt, decrypt, get_meta,
        set_meta, hdW]
    · have hne : m' ≠ verification_token :=
        hR (kdf P salt) (kdf W salt) vnonce verification_token m' hlenP
          hlenW (Ne.symm hkdf) hdW
      simp [ClawBox.unlock, ClawBox.init, ClawBox.lock, ClawBox.log_audit,
        ClawBox.is_unlocked, derive_key, encrypt, decrypt, get_meta,
        set_meta, hdW, hne]

/-- Witness for C4 at the toy AEAD and KDF with passwords a and b. -/
theorem vault_lifecycle_witness :
    (ClawBox.unlock toyAead toyKdf
      (ClawBox.lock (ClawBox.init toyAead toyKdf emptyVault "a" [] [7]).2)
      "b").1 = .error Error.InvalidPassword :=
  (vault_lifecycle toyAead toyKdf emptyVault "a" "b" [] [7]
    toyAead_correct toyAead_wrongKey (by decide) (by decide) (by decide)
    (by decide)).2.2.2.1

/-- C8: delete returns ok true exactly when the vault is unlocked and a
row existed at the path, ok false (not an error) when unlocked and no
row existed, and the VaultLocked error when locked. -/
theorem delete_result_spec (cb : VaultState) (p : String) :
    ((ClawBox.delete cb p).1 = .ok true ↔
      ClawBox.is_unlocked cb = true ∧
        (cb.secrets.any fun r => r.path == p) = true) ∧
    (ClawBox.is_unlocked cb = true →
      (cb.secrets.any fun r => r.path == p) = false →
      (ClawBox.delete cb p).1 = .ok false) ∧
    (ClawBox.is_unlocked cb = false →
      (ClawBox.delete cb p).1 = .error Error.VaultLocked) := by
  by_cases hu : ClawBox.is_unlocked cb = false
  · refine ⟨?_, ?_, fun _ => ?_⟩
    · simp [ClawBox.delete, hu]
    · intro h
      rw [h] at hu
      exact absurd hu (by decide)
    · simp [ClawBox.delete, hu]
  · have hu' : ClawBox.is_unlocked cb = true := by
      revert hu
      cases ClawBox.is_unlocked cb <;> simp
    refine ⟨?_, ?_, fun h => absurd h (by rw [hu']; decide)⟩
    · simp [ClawBox.delete, hu', SqliteStore.delete]
    · intro _ hnone
      simp [ClawBox.delete, hu', SqliteStore.delete, hnone]

/-- Witness for C8 on a locked vault. -/
theorem delete_result_spec_witness :
    (ClawBox.delete emptyVault "x").1 = .error Error.VaultLocked :=
  (delete_result_spec emptyVault "x").2.2 rfl

/-- C9: when the stored blob decrypts under the session key but the
plaintext is not valid UTF-8, get returns a Decryption error (neither a
value nor none). -/
theorem get_invalid_utf8 (A : Aead) (u8 : Utf8) (cb : VaultState)
    (p : String) (K : DerivedKey) (data pt : Bytes)
    (hkey : cb.key = some K)
    (hdata : SqliteStore.get cb.secrets p = some data)
    (hlen : ¬ data.length < 12)
    (hdec : A.dec K.bytes (data.take 12) (data.drop 12) = some pt)
    (hu8 : u8 pt = none) :
    (ClawBox.get A u8 cb p).1 = .error (Error.Decryption "utf8") := by
  simp [ClawBox.get, hkey, hdata, hlen, decrypt, hdec, hu8]

/-- ASCII-only decoder used as a concrete instance of String::from_utf8
in witnesses: bytes below 128 decode, anything else is invalid. -/
def asciiUtf8 : Utf8 :=
  fun b => if b.all fun c => c < 128 then
    some (String.mk (b.map Char.ofNat))
  else none

/-- Unlocked vault holding one secret whose blob decrypts (under the toy
AEAD) to the single invalid byte 255. -/
def utf8Vault : VaultState :=
  { path := "/vault", meta := fun _ => none,
    secrets := [⟨"id0", "p",
      List.replicate 12 0 ++ (List.replicate KEY_LEN 7 ++ [255]),
      AccessLevel.Normal, [], none, 0, 0, "human"⟩],
    audit_calls := [], key := some ⟨List.replicate KEY_LEN 7⟩ }

/-- Witness for C9 on the concrete vault with an invalid-UTF-8 secret. -/
theorem get_invalid_utf8_witness :
    (ClawBox.get toyAead asciiUtf8 utf8Vault "p").1 =
      .error (Error.Decryption "utf8") :=
  get_invalid_utf8 toyAead asciiUtf8 utf8Vault "p"
    ⟨List.replicate KEY_LEN 7⟩
    (List.replicate 12 0 ++ (List.replicate KEY_LEN 7 ++ [255])) [255]
    rfl (by decide) (by decide) (by decide) (by decide)

/-- Unlocked vault holding one well-formed (length 15) blob that fails
AEAD authentication under the toy AEAD. -/
def cexVault : VaultState :=
  { path := "/vault", meta := fun _ => none,
    secrets := [⟨"id0", "p", List.replicate 12 0 ++ [1, 2, 3],
      AccessLevel.Normal, [], none, 0, 0, "human"⟩],
    audit_calls := [], key := some ⟨List.replicate KEY_LEN 7⟩ }

/-- C6 counterexample: a get whose stored blob is well-formed but fails
AEAD authentication returns a Decryption error and appends no audit
entry, so not every get outcome is audited. -/
theorem get_decrypt_failure_unaudited_counterexample :
    (ClawBox.get toyAead asciiUtf8 cexVault "p").1 =
      .error (Error.Decryption "aead") ∧
    (ClawBox.get toyAead asciiUtf8 cexVault "p").2.audit_calls = [] :=
  ⟨rfl, rfl⟩

/-- C6 amended: get on an unlocked vault appends exactly one audit entry
in the not-found, malformed-blob and success outcomes, and appends
nothing when AEAD authentication fails on a well-formed blob or when the
plaintext is not valid UTF-8 (those errors propagate unaudited). -/
theorem get_audit_behavior (A : Aead) (u8 : Utf8) (cb : VaultState)
    (p : String) (K : DerivedKey) (hkey : cb.key = some K) :
    (SqliteStore.get cb.secrets p = none →
      (ClawBox.get A u8 cb p).2.audit_calls =
        cb.audit_calls ++ [⟨Action.Read, p, false, some "Not found"⟩]) ∧
    (∀ data, SqliteStore.get cb.secrets p = some data → data.length < 12 →
      (ClawBox.get A u8 cb p).2.audit_calls =
        cb.audit_calls ++
          [⟨Action.Read, p, false, some "Invalid data format"⟩]) ∧
    (∀ data, SqliteStore.get cb.secrets p = some data →
      ¬ data.length < 12 →
      A.dec K.bytes (data.take 12) (data.drop 12) = none →
      (ClawBox.get A u8 cb p).1 = .error (Error.Decryption "aead") ∧
      (ClawBox.get A u8 cb p).2.audit_calls = cb.audit_calls) ∧
    (∀ data pt, SqliteStore.get cb.secrets p = some data →
      ¬ data.length < 12 →
      A.dec K.bytes (data.take 12) (data.drop 12) = some pt →
      u8 pt = none →
      (ClawBox.get A u8 cb p).2.audit_calls = cb.audit_calls) ∧
    (∀ data pt v, SqliteStore.get cb.secrets p = some data →
      ¬ data.length < 12 →
      A.dec K.bytes (data.take 12) (data.drop 12) = some pt →
      u8 pt = some v →
      (ClawBox.get A u8 cb p).2.audit_calls =
        cb.audit_calls ++ [⟨Action.Read, p, true, none⟩]) := by
  refine ⟨?_, ?_, ?_, ?_, ?_⟩
  · intro hnone
    simp [ClawBox.get, hkey, hnone, ClawBox.log_audit]
  · intro data hdata hlen
    simp [ClawBox.get, hkey, hdata, hlen, ClawBox.log_audit]
  · intro data hdata hlen hdec
    constructor <;>
      simp [ClawBox.get, hkey, hdata, hlen, decrypt, hdec]
  · intro data pt hdata hlen hdec hu8
    simp [ClawBox.get, hkey, hdata, hlen, decrypt, hdec, hu8]
  · intro data pt v hdata hlen hdec hu8
    simp [ClawBox.get, hkey, hdata, hlen, decrypt, hdec, hu8,
      ClawBox.log_audit]

/-- Unlocked vault with no secrets, for the C6 witness. -/
def unlockedEmptyVault : VaultState :=
  { path := "/vault", meta := fun _ => none, secrets := [],
    audit_calls := [], key := some ⟨List.replicate KEY_LEN 7⟩ }

/-- Witness for the amended C6: the not-found outcome appends one
entry. -/
theorem get_audit_behavior_witness :
    (ClawBox.get toyAead asciiUtf8 unlockedEmptyVault "q").2.audit_calls =
      unlockedEmptyVault.audit_calls ++
        [⟨Action.Read, "q", false, some "Not found"⟩] :=
  (get_audit_behavior toyAead asciiUtf8 unlockedEmptyVault "q"
    ⟨List.replicate KEY_LEN 7⟩ rfl).1 rfl

/-- Rows whose path does not match are untouched by the upsert update and
are dropped by a filter on that path. -/
theorem filter_path_map_upsert (p : String) (value : Bytes)
    (access : AccessLevel) (tags : List String) (note : Option String)
    (now : Nat) (l : List SecretRow)
    (hl : ∀ r ∈ l, (r.path == p) = false) :
    ((l.map (SqliteStore.upsert_row p value access tags note now)).filter
      fun r => r.path == p) = [] := by
  induction l with
  | nil => rfl
  | cons r rest ih =>
    have hr : (r.path == p) = false := hl r (List.mem_cons_self r rest)
    have hrest : ∀ x ∈ rest, (x.path == p) = false := fun x hx =>
      hl x (List.mem_cons_of_mem r hx)
    simp [SqliteStore.upsert_row, hr, ih hrest]

/-- Two store-level sets on the same fresh path: the first inserts, the
second hits the ON CONFLICT update, leaving one row at the path with the
second value and options, the first created_at, and the second
updated_at. -/
theorem store_set_twice (id1 id2 p : String) (d1 d2 : Bytes)
    (a1 a2 : AccessLevel) (tg1 tg2 : List String) (nt1 nt2 : Option String)
    (t1 t2 : Nat) (l : List SecretRow)
    (h : (l.any fun r => r.path == p) = false) :
    ((SqliteStore.set (SqliteStore.set l id1 p d1 a1 tg1 nt1 t1)
        id2 p d2 a2 tg2 nt2 t2).filter fun r => r.path == p) =
      [⟨id1, p, d2, a2, tg2, nt2, t1, t2, "human"⟩] := by
  have hall : ∀ r ∈ l, (r.path == p) = false := by
    intro r hr
    have h' := (List.any_eq_false.mp h) r hr
    simpa using h'
  have h1 : SqliteStore.set l id1 p d1 a1 tg1 nt1 t1 =
      l ++ [⟨id1, p, d1, a1, tg1, nt1, t1, t1, "human"⟩] := by
    simp only [SqliteStore.set]
    rw [if_neg (by simp [h])]
  have h2 : SqliteStore.set
      (l ++ [(⟨id1, p, d1, a1, tg1, nt1, t1, t1, "human"⟩ : SecretRow)])
      id2 p d2 a2 tg2 nt2 t2 =
      List.map (SqliteStore.upsert_row p d2 a2 tg2 nt2 t2)
        (l ++ [(⟨id1, p, d1, a1, tg1, nt1, t1, t1, "human"⟩ : SecretRow)]) := by
    simp only [SqliteStore.set]
    rw [if_pos (by simp)]
  rw [h1, h2, List.map_append, List.filter_append,
    filter_path_map_upsert p d2 a2 tg2 nt2 t2 l hall]
  simp [SqliteStore.upsert_row]

/-- C7: setting the same path twice on an unlocked vault that had no row
there leaves exactly one row at the path, carrying the second encrypted
value, options and updated_at but the first set's created_at; and that
stored value decrypts (as get would parse it) to the second value's
bytes. Assumes the AEAD round-trip contract; the nonce of the second set
has the GCM length 12. -/
theorem set_upsert_one_row (A : Aead) (enc8 : StrBytes) (cb : VaultState)
    (K : DerivedKey) (p v1 v2 : String) (o1 o2 : SetOptions)
    (n1 n2 : Bytes) (id1 id2 : String) (t1 t2 : Nat)
    (hkey : cb.key = some K)
    (hfresh : (cb.secrets.any fun r => r.path == p) = false)
    (hA : AeadCorrect A) (hklen : K.bytes.length = KEY_LEN)
    (hn2 : n2.length = 12) :
    ((ClawBox.set A enc8 (ClawBox.set A enc8 cb p v1 o1 n1 id1 t1).2
        p v2 o2 n2 id2 t2).2.secrets.filter fun r => r.path == p) =
      [⟨id1, p, n2 ++ A.enc K.bytes n2 (enc8 v2), o2.access, o2.tags,
        o2.note, t1, t2, "human"⟩] ∧
    decrypt A ⟨(n2 ++ A.enc K.bytes n2 (enc8 v2)).take 12,
        (n2 ++ A.enc K.bytes n2 (enc8 v2)).drop 12⟩ K =
      .ok (enc8 v2) := by
  constructor
  · have hrows := store_set_twice id1 id2 p
      (n1 ++ A.enc K.bytes n1 (enc8 v1))
      (n2 ++ A.enc K.bytes n2 (enc8 v2))
      o1.access o2.access o1.tags o2.tags o1.note o2.note t1 t2
      cb.secrets hfresh
    simpa [ClawBox.set, hkey, encrypt, ClawBox.log_audit] using hrows
  · have htake : (n2 ++ A.enc K.bytes n2 (enc8 v2)).take 12 = n2 := by
      rw [← hn2, List.take_left]
    have hdrop : (n2 ++ A.enc K.bytes n2 (enc8 v2)).drop 12 =
        A.enc K.bytes n2 (enc8 v2) := by
      rw [← hn2, List.drop_left]
    rw [htake, hdrop]
    simp [decrypt, hA K.bytes n2 (enc8 v2) hklen]

/-- Byte encoding of strings used as a concrete instance of
str::as_bytes in witnesses (code points; agrees with UTF-8 on ASCII). -/
def asciiBytes : StrBytes :=
  fun s => s.toList.map Char.toNat

/-- Witness for C7 on an unlocked empty vault with two concrete sets. -/
theorem set_upsert_one_row_witness :
    ((ClawBox.set toyAead asciiBytes
        (ClawBox.set toyAead asciiBytes unlockedEmptyVault "p" "v1"
          ⟨AccessLevel.Normal, none, [], none⟩ (List.replicate 12 0) "id1"
          5).2
        "p" "v2" ⟨AccessLevel.Sensitive, none, ["t"], some "n"⟩
        (List.replicate 12 1) "id2" 9).2.secrets.filter
      fun r => r.path == "p") =
      [⟨"id1", "p", List.replicate 12 1 ++
          toyAead.enc (List.replicate KEY_LEN 7) (List.replicate 12 1)
            (asciiBytes "v2"),
        AccessLevel.Sensitive, ["t"], some "n", 5, 9, "human"⟩] ∧
    decrypt toyAead
      ⟨(List.replicate 12 1 ++
          toyAead.enc (List.replicate KEY_LEN 7) (List.replicate 12 1)
            (asciiBytes "v2")).take 12,
       (List.replicate 12 1 ++
          toyAead.enc (List.replicate KEY_LEN 7) (List.replicate 12 1)
            (asciiBytes "v2")).drop 12⟩
      ⟨List.replicate KEY_LEN 7⟩ = .ok (asciiBytes "v2") :=
  set_upsert_one_row toyAead asciiBytes unlockedEmptyVault
    ⟨List.replicate KEY_LEN 7⟩ "p" "v1" "v2"
    ⟨AccessLevel.Normal, none, [], none⟩
    ⟨AccessLevel.Sensitive, none, ["t"], some "n"⟩
    (List.replicate 12 0) (List.replicate 12 1) "id1" "id2" 5 9
    rfl rfl toyAead_correct (by decide) (by decide)

/-- SyncMeta from icloud.rs (the vault.meta and sync.meta files: version,
timestamp, device id), modelled at the parsed level. -/
structure SyncMeta where
  version : Nat
  timestamp : Nat
  device_id : String
deriving DecidableEq, Repr

/-- SyncResult from icloud.rs. -/
inductive SyncResult where
  | Pulled : SyncResult
  | Pushed : SyncResult
  | UpToDate : SyncResult
  | Unavailable : SyncResult
deriving DecidableEq, Repr

/-- State touched by ICloudSync of icloud.rs: availability of the iCloud
container, the remote vault.encrypted and vault.meta files, the local
vault.db, vault.db.backup and sync.meta files, and the configured sync
key. A missing file is none. -/
structure SyncState where
  icloud_available : Bool
  remote_vault : Option Bytes
  remote_meta : Option SyncMeta
  local_vault_db : Option Bytes
  local_backup : Option Bytes
  local_meta : Option SyncMeta
  encryption_key : Option Bytes
deriving DecidableEq, Repr

/-- ICloudSync::is_available of icloud.rs. -/
def ICloudSync.is_available (s : SyncState) : Bool :=
  s.icloud_available

/-- ICloudSync::local_version of icloud.rs: the version in sync.meta, or
0 when the file is absent. -/
def ICloudSync.local_version (s : SyncState) : Nat :=
  match s.local_meta with
  | some m => m.version
  | none => 0

/-- The value ICloudSync::remote_version reads when iCloud is available:
the version in the remote vault.meta, or 0 when absent. -/
def ICloudSync.remote_version_val (s : SyncState) : Nat :=
  match s.remote_meta with
  | some m => m.version
  | none => 0

/-- ICloudSync::remote_version of icloud.rs: fails when iCloud is not
available. -/
def ICloudSync.remote_version (s : SyncState) : Except Error Nat :=
  if s.icloud_available then .ok (ICloudSync.remote_version_val s)
  else .error (Error.Other "iCloud not available")

/-- ICloudSync::push of icloud.rs: read the local vault.db, encrypt it
under the sync key with a fresh (parameter) nonce, write the blob to the
remote vault file, and write a metadata record carrying local_version+1,
the current time and the device id to both the remote and the local
metadata files. -/
def ICloudSync.push (A : Aead) (s : SyncState) (nonce : Bytes) (now : Nat)
    (device : String) : Except Error Unit × SyncState :=
  if !s.icloud_available then
    (.error (Error.Other "iCloud not available"), s)
  else
    match s.encryption_key with
    | none => (.error (Error.Other "Encryption key not set"), s)
    | some key =>
      match s.local_vault_db with
      | none => (.error (Error.IoError "vault.db not found"), s)
      | some vault_data =>
        match encrypt A vault_data (DerivedKey.from_bytes key) nonce with
        | .error e => (.error e, s)
        | .ok encd =>
          let sync_data := encd.nonce ++ encd.ciphertext
          let s1 := { s with remote_vault := some sync_data }
          let meta : SyncMeta :=
            ⟨ICloudSync.local_version s1 + 1, now, device⟩
          let s2 := { s1 with remote_meta := some meta }
          (.ok (), { s2 with local_meta := some meta })

/-- ICloudSync::pull of icloud.rs: read and decrypt the remote blob
(rejecting blobs shorter than one nonce), back up the local vault.db if
it exists, overwrite it with the decrypted content, then copy the remote
metadata record to the local metadata file. -/
def ICloudSync.pull (A : Aead) (s : SyncState) :
    Except Error Unit × SyncState :=
  if !s.icloud_available then
    (.error (Error.Other "iCloud not available"), s)
  else
    match s.encryption_key with
    | none => (.error (Error.Other "Encryption key not set"), s)
    | some key =>
      match s.remote_vault with
      | none => (.error (Error.Other "No remote vault found"), s)
      | some sync_data =>
        if sync_data.length < 12 then
          (.error (Error.Other "Invalid sync data"), s)
        else
          match decrypt A ⟨sync_data.take 12, sync_data.drop 12⟩
              (DerivedKey.from_bytes key) with
          | .error e => (.error e, s)
          | .ok vault_data =>
            let s1 := if s.local_vault_db.isSome then
                { s with local_backup := s.local_vault_db }
              else s
            let s2 := { s1 with local_vault_db := some vault_data }
            match s2.remote_meta with
            | none => (.error (Error.IoError "vault.meta not found"), s2)
            | some rm => (.ok (), { s2 with local_meta := some rm })

/-- ICloudSync::sync of icloud.rs: Unavailable without iCloud; otherwise
pull when the remote version is greater, push when the local version is
greater, and report UpToDate when equal. -/
def ICloudSync.sync (A : Aead) (s : SyncState) (nonce : Bytes) (now : Nat)
    (device : String) : Except Error SyncResult × SyncState :=
  if !ICloudSync.is_available s then (.ok SyncResult.Unavailable, s)
  else
    match ICloudSync.remote_version s with
    | .error e => (.error e, s)
    | .ok remote =>
      if remote > ICloudSync.local_version s then
        match ICloudSync.pull A s with
        | (.ok _, s') => (.ok SyncResult.Pulled, s')
        | (.error e, s') => (.error e, s')
      else if ICloudSync.local_version s > remote then
        match ICloudSync.push A s nonce now device with
        | (.ok _, s') => (.ok SyncResult.Pushed, s')
        | (.error e, s') => (.error e, s')
      else (.ok SyncResult.UpToDate, s)

/-- C5: with iCloud available and a sync key configured, sync is a no-op
reporting UpToDate when the versions are equal; when the remote version
is greater it pulls, backing up the current local store, overwriting it
with the decrypted remote content and adopting the remote metadata
(hence its version) locally; when the local version is greater it
pushes, uploading the re-encrypted local store and persisting
local_version+1 in both the remote and local metadata records. -/
theorem sync_version_reconciliation (A : Aead) (s : SyncState)
    (nonce : Bytes) (now : Nat) (device : String) (k : Bytes)
    (havail : s.icloud_available = true)
    (hkey : s.encryption_key = some k) :
    (ICloudSync.local_version s = ICloudSync.remote_version_val s →
      ICloudSync.sync A s nonce now device =
        (.ok SyncResult.UpToDate, s)) ∧
    (∀ d rm pt, ICloudSync.remote_version_val s > ICloudSync.local_version s →
      s.remote_vault = some d → ¬ d.length < 12 →
      A.dec (DerivedKey.from_bytes k).bytes (d.take 12) (d.drop 12) =
        some pt →
      s.remote_meta = some rm →
      ICloudSync.sync A s nonce now device =
        (.ok SyncResult.Pulled,
         { s with
           local_backup := if s.local_vault_db.isSome then s.local_vault_db
             else s.local_backup,
           local_vault_db := some pt,
           local_meta := some rm })) ∧
    (∀ vd, ICloudSync.local_version s > ICloudSync.remote_version_val s →
      s.local_vault_db = some vd →
      ICloudSync.sync A s nonce now device =
        (.ok SyncResult.Pushed,
         { s with
           remote_vault := some
             (nonce ++ A.enc (DerivedKey.from_bytes k).bytes nonce vd),
           remote_meta := some
             ⟨ICloudSync.local_version s + 1, now, device⟩,
           local_meta := some
             ⟨ICloudSync.local_version s + 1, now, device⟩ })) := by
  refine ⟨?_, ?_, ?_⟩
  · intro heq
    simp [ICloudSync.sync, ICloudSync.is_available, havail,
      ICloudSync.remote_version, ← heq]
  · intro d rm pt hgt hd hlen hdec hm
    simp only [ICloudSync.sync, ICloudSync.is_available, havail,
      Bool.not_true, Bool.false_eq_true, if_false,
      ICloudSync.remote_version, if_true, if_pos hgt]
    simp only [ICloudSync.pull, havail, Bool.not_true, Bool.false_eq_true,
      if_false, hkey, hd, if_neg hlen, decrypt, hdec, hm]
    by_cases hc : s.local_vault_db.isSome <;>
      simp [hc, hm, havail, hd, hkey]
  · intro vd hlt hvd
    have hngt : ¬ ICloudSync.remote_version_val s >
        ICloudSync.local_version s := Nat.lt_asymm hlt
    simp only [ICloudSync.sync, ICloudSync.is_available, havail,
      Bool.not_true, Bool.false_eq_true, if_false,
      ICloudSync.remote_version, if_true, if_neg hngt, if_pos hlt]
    simp [ICloudSync.push, havail, hkey, hvd, encrypt,
      ICloudSync.local_version]

/-- Equal-version sync state for the C5 witness. -/
def syncState0 : SyncState :=
  { icloud_available := true, remote_vault := none, remote_meta := none,
    local_vault_db := none, local_backup := none, local_meta := none,
    encryption_key := some (List.replicate KEY_LEN 5) }

/-- Witness for C5: equal versions give UpToDate and leave the state
untouched. -/
theorem sync_version_reconciliation_witness :
    ICloudSync.sync toyAead syncState0 [] 0 "dev" =
      (.ok SyncResult.UpToDate, syncState0) :=
  (sync_version_reconciliation toyAead syncState0 [] 0 "dev"
    (List.replicate KEY_LEN 5) rfl rfl).1 rfl

end Clawbox
